import Mathlib

/-!
Verification of the data-transformation pipeline of
`fashion_analysis_dashboard.py` (a pandas/streamlit dashboard).

The dataframe is modelled as a column-name list plus rows; a row is an
association list from attribute name to string value, a missing cell
(pandas NaN) being an absent key.  Every pipeline operation of the script
(sidebar option lists, the three cascading filters, value_counts
tallies, the Occasion-Fit explosions, the groupby-size cross
tabulations and the top-category restriction) is translated below.
-/

namespace FashionDashboard

/-- A product row: attribute name to value; a missing cell is an absent key. -/
abbrev Row : Type := List (String × String)

/-- Cell access, `some v` when the attribute is present and non-missing. -/
def getVal (r : Row) (c : String) : Option String :=
  (r.find? (fun p => p.1 == c)).map Prod.snd

/-- A parsed dataframe: the discovered column names plus the ordered rows. -/
structure DataFrame where
  cols : List String
  rows : List Row
deriving DecidableEq

/-! ### Models of the Python string operations used by the script -/

/-- Split a character list at every occurrence of the separator character,
mirroring Python `str.split(sep)`: `""` gives `[""]`, a trailing separator
gives a trailing empty token. -/
def splitOnChar (c : Char) : List Char → List (List Char)
  | [] => [[]]
  | x :: xs =>
    let r := splitOnChar c xs
    if x = c then [] :: r
    else
      match r with
      | [] => [[x]]
      | y :: ys => (x :: y) :: ys

/-- Python `s.split(sep)` for a one-character separator (also pandas
`.str.split(sep, expand=True).stack()` restricted to one row). -/
def pySplit (s : String) (c : Char) : List String :=
  (splitOnChar c s.data).map List.asString

/-- Python `str.strip()`: drop leading and trailing whitespace. -/
def pyStrip (s : String) : String :=
  (((s.data.dropWhile Char.isWhitespace).reverse.dropWhile Char.isWhitespace).reverse).asString

/-! ### Generic list helpers (pandas `unique`, counting) -/

/-- Scan of a list keeping the first occurrence of each value not yet seen. -/
def dedupScan [DecidableEq α] (seen : List α) : List α → List α
  | [] => []
  | x :: xs => if x ∈ seen then dedupScan seen xs else x :: dedupScan (x :: seen) xs

/-- pandas `Series.unique`: distinct values in order of first occurrence. -/
def dedupFirst [DecidableEq α] (l : List α) : List α :=
  dedupScan [] l

/-- Number of occurrences of `v` in a list. -/
def cnt [DecidableEq α] (v : α) : List α → Nat
  | [] => 0
  | x :: xs => (if x = v then 1 else 0) + cnt v xs

/-! ### The pipeline operations of the script -/

/-- The non-missing values of one column, in row order
(pandas `df[c].dropna()`). -/
def dropnaCol (df : DataFrame) (c : String) : List String :=
  df.rows.filterMap (fun r => getVal r c)

/-- Lexicographic code-point comparison of character lists: the order
Python `sorted` uses on strings. -/
def charListLe : List Char → List Char → Bool
  | [], _ => true
  | _ :: _, [] => false
  | x :: xs, y :: ys =>
    if x.toNat < y.toNat then true
    else if y.toNat < x.toNat then false
    else charListLe xs ys

/-- Python string order, as a proposition. -/
def strLeP (a b : String) : Prop := charListLe a.data b.data = true

instance : DecidableRel strLeP := fun a b => by
  unfold strLeP
  infer_instance

/-- Ascending sort of a string list (Python `sorted`). -/
def sortAsc (l : List String) : List String :=
  List.insertionSort strLeP l

/-- The distinct non-missing values of a column of the raw dataframe,
sorted ascending: `sorted(df[c].dropna().unique().tolist())`
(script lines 109, 114, 119). -/
def distinctValues (df : DataFrame) (c : String) : List String :=
  sortAsc (dedupFirst (dropnaCol df c))

/-- The option list offered by a sidebar filter widget:
the sentinel followed by the distinct values of the raw dataframe. -/
def optionList (df : DataFrame) (c : String) : List String :=
  "All" :: distinctValues df c

/-- One conditional filter statement of the script (lines 125--132):
keep rows whose value is among the selected ones, unless the column is
absent or the selection contains the sentinel `All`, in which case the
dataframe passes through unchanged.  A missing cell never satisfies
`isin`. -/
def filterStep (df : DataFrame) (c : String) (sel : List String) : DataFrame :=
  if df.cols.contains c && !(sel.contains "All") then
    { df with
      rows := df.rows.filter (fun r =>
        match getVal r c with
        | some v => sel.contains v
        | none => false) }
  else df

/-- The three sidebar selections. -/
structure Selections where
  brand : List String
  productType : List String
  subCategory : List String

/-- The whole filter cascade producing `filtered_df` (lines 123--132). -/
def applyFilters (df : DataFrame) (s : Selections) : DataFrame :=
  filterStep (filterStep (filterStep df "brand" s.brand)
    "Product-Type" s.productType) "Sub-Category" s.subCategory

/-- The per-row acceptance test of one conditional filter statement. -/
def passes (cols : List String) (c : String) (sel : List String) (r : Row) : Bool :=
  if cols.contains c && !(sel.contains "All") then
    match getVal r c with
    | some v => sel.contains v
    | none => false
  else true

/-- The conjunction of the three per-row acceptance tests. -/
def bigPred (cols : List String) (s : Selections) (r : Row) : Bool :=
  passes cols "brand" s.brand r
    && passes cols "Product-Type" s.productType r
    && passes cols "Sub-Category" s.subCategory r

/-- pandas `Series.value_counts()`: tally the distinct values and sort by
count, largest first.  The library documents only the descending count
order; the relative order of equal counts is an implementation detail of
pandas and no theorem below depends on it. -/
def valueCounts [DecidableEq α] (l : List α) : List (α × Nat) :=
  List.insertionSort (fun u v => v.2 ≤ u.2) ((dedupFirst l).map (fun v => (v, cnt v l)))

/-- Ordering of groupby keys: lexicographic on the string pair. -/
def keyLe (u v : (String × String) × Nat) : Prop :=
  (if u.1.1 == v.1.1 then charListLe u.1.2.data v.1.2.data
   else charListLe u.1.1.data v.1.1.data) = true

instance : DecidableRel keyLe := fun u v => by
  unfold keyLe
  infer_instance

/-- pandas `groupby([a, b]).size()` over an explicit list of key pairs:
one entry per distinct observed pair with its multiplicity, sorted by
key. -/
def groupSizePairs (l : List (String × String)) : List ((String × String) × Nat) :=
  List.insertionSort keyLe ((dedupFirst l).map (fun p => (p, cnt p l)))

/-- The rows where both columns are non-missing, as value pairs
(the groups fed to `groupby([a, b]).size()`, which drops NaN keys). -/
def pairObs (df : DataFrame) (a b : String) : List (String × String) :=
  df.rows.filterMap (fun r =>
    match getVal r a, getVal r b with
    | some x, some y => some (x, y)
    | _, _ => none)

/-- Model of script line 203: group the filtered rows by the two columns
and take the size of each group. -/
def crossTabCounts (df : DataFrame) (a b : String) : List ((String × String) × Nat) :=
  groupSizePairs (pairObs df a b)

/-- Model of script lines 205 and 539, the isin restriction: keep only
the entries whose first key component is in the kept-category list. -/
def restrictTop (ct : List ((String × String) × Nat)) (top : List String) :
    List ((String × String) × Nat) :=
  ct.filter (fun e => top.contains e.1.1)

/-- The exploded Occasion-Fit observations (script line 293):
`filtered_df['Occasion-Fit'].dropna().str.split(',', expand=True).stack().str.strip()`.
`stack` drops only NaN entries, so every token of every split survives,
each trimmed. -/
def occasionData (df : DataFrame) : List String :=
  (dropnaCol df "Occasion-Fit").flatMap (fun s => (pySplit s ',').map pyStrip)

/-- Model of script line 527: the rows where both Occasion-Fit and
Gender-Target are non-missing, after the dropna over the two columns. -/
def occGenderRows (df : DataFrame) : List (String × String) :=
  df.rows.filterMap (fun r =>
    match getVal r "Occasion-Fit", getVal r "Gender-Target" with
    | some o, some g => some (o, g)
    | _, _ => none)

/-- The loop body of script lines 529--532 for one retained row:
split the Occasion-Fit string on the comma, strip each token, pair it
with the gender value of the row. -/
def rowContribution (o g : String) : List (String × String) :=
  (pySplit o ',').map (fun occ => (pyStrip occ, g))

/-- The full `occasion_list` built by the loop of lines 529--532. -/
def occasionGenderPairs (df : DataFrame) : List (String × String) :=
  (occGenderRows df).flatMap (fun p => rowContribution p.1 p.2)

/-- Model of script line 536: the occasion-by-gender group sizes. -/
def occGenderCounts (df : DataFrame) : List ((String × String) × Nat) :=
  groupSizePairs (occasionGenderPairs df)

/-- The trimmed tokens of one multi-valued cell. -/
def tokensOf (s : String) : List String :=
  (pySplit s ',').map pyStrip

/-- The persistent session state: the immutable raw dataset held by the
session layer (`st.session_state` plus the cached `load_data` result). -/
structure SessionState where
  raw : DataFrame

/-- The derived tables one rerun of the script computes and hands to the
rendering layer. -/
structure DerivedTables where
  filtered : DataFrame
  brandCounts : List (String × Nat)
  brandProduct : List ((String × String) × Nat)
  colorCounts : List (String × Nat)
  occasionCounts : List (String × Nat)
  genderCounts : List (String × Nat)
  occGender : List ((String × String) × Nat)
  layeringCounts : List (String × Nat)

/-- One rerun of the script body: every derivation reads the raw dataset
from the session state, filters it, aggregates, and returns the state
along with the derived tables (script lines 123--132, 161, 203--205,
264, 293--294, 426, 527--539, 618--623). -/
def runDashboard (st : SessionState) (s : Selections) : SessionState × DerivedTables :=
  let df := st.raw
  let fdf := applyFilters df s
  (st,
   { filtered := fdf
     brandCounts := (valueCounts (dropnaCol fdf "brand")).take 10
     brandProduct := restrictTop (crossTabCounts fdf "brand" "Product-Type")
       (((valueCounts (dropnaCol fdf "brand")).take 15).map Prod.fst)
     colorCounts := (valueCounts (dropnaCol fdf "Primary-Color")).take 10
     occasionCounts := (valueCounts (occasionData fdf)).take 10
     genderCounts := valueCounts (dropnaCol fdf "Gender-Target")
     occGender := restrictTop (occGenderCounts fdf)
       (((valueCounts ((occasionGenderPairs fdf).map Prod.fst)).take 10).map Prod.fst)
     layeringCounts := valueCounts (dropnaCol fdf "Layering-Position") })

/-! ### Concrete datasets used as witnesses and counterexamples -/

/-- A one-row dataset whose Occasion-Fit cell ends in a trailing comma. -/
def exDf2 : DataFrame :=
  { cols := ["Occasion-Fit"], rows := [[("Occasion-Fit", "Casual,")]] }

/-- A one-row dataset with a trailing comma and a gender value. -/
def exDf2b : DataFrame :=
  { cols := ["Occasion-Fit", "Gender-Target"],
    rows := [[("Occasion-Fit", "Casual,"), ("Gender-Target", "Women")]] }

/-- The spec scenario for conservation: five rows, Sub-Category missing in
two of them and Knitwear in the other three. -/
def exDf4 : DataFrame :=
  { cols := ["Sub-Category"],
    rows := [[("Sub-Category", "Knitwear")], [], [("Sub-Category", "Knitwear")],
             [], [("Sub-Category", "Knitwear")]] }

/-- Brands A, B, C with one product type each; B never occurs with X. -/
def exDf6 : DataFrame :=
  { cols := ["brand", "Product-Type"],
    rows := [[("brand", "A"), ("Product-Type", "X")],
             [("brand", "B"), ("Product-Type", "Y")],
             [("brand", "C"), ("Product-Type", "X")]] }

/-- The spec scenario for explosion: one row with two occasion tags. -/
def exDf7 : DataFrame :=
  { cols := ["Occasion-Fit", "Gender-Target"],
    rows := [[("Occasion-Fit", "Casual, Formal"), ("Gender-Target", "Women")]] }

/-- The single row of `exDf7`. -/
def exRow7 : Row := [("Occasion-Fit", "Casual, Formal"), ("Gender-Target", "Women")]

/-- Two brands, a product type column, and a row missing each column. -/
def exDf8 : DataFrame :=
  { cols := ["brand", "Product-Type"],
    rows := [[("brand", "B")], [("brand", "A"), ("Product-Type", "X")],
             [("Product-Type", "Y")]] }

/-- A selection constraining only the product type. -/
def sel8 : Selections :=
  { brand := ["All"], productType := ["X"], subCategory := ["All"] }

/-- A dataset in which the literal value All occurs as a brand. -/
def exDf10 : DataFrame :=
  { cols := ["brand"], rows := [[("brand", "All")], [("brand", "X")]] }

/-! ### Lemmas about the filter cascade -/

theorem filterStep_eq (df : DataFrame) (c : String) (sel : List String) :
    filterStep df c sel = ⟨df.cols, df.rows.filter (passes df.cols c sel)⟩ := by
  unfold filterStep passes
  by_cases h : (df.cols.contains c && !(sel.contains "All")) = true
  · simp only [h, if_true]
  · simp only [h, if_false, Bool.false_eq_true, List.filter_true]

theorem applyFilters_eq (df : DataFrame) (s : Selections) :
    applyFilters df s = ⟨df.cols, df.rows.filter (bigPred df.cols s)⟩ := by
  unfold applyFilters
  rw [filterStep_eq, filterStep_eq, filterStep_eq]
  simp only [List.filter_filter]
  congr 1
  apply List.filter_congr
  intro r _
  unfold bigPred
  cases passes df.cols "brand" s.brand r <;>
    cases passes df.cols "Product-Type" s.productType r <;>
      cases passes df.cols "Sub-Category" s.subCategory r <;> rfl

theorem applyFilters_cols (df : DataFrame) (s : Selections) :
    (applyFilters df s).cols = df.cols := by
  rw [applyFilters_eq]

theorem applyFilters_rows_sublist (df : DataFrame) (s : Selections) :
    (applyFilters df s).rows.Sublist df.rows := by
  rw [applyFilters_eq]
  exact List.filter_sublist df.rows

/-! ### Lemmas about deduplication and counting -/

theorem mem_dedupScan [DecidableEq α] {v : α} :
    ∀ {l seen : List α}, v ∈ dedupScan seen l ↔ v ∈ l ∧ v ∉ seen := by
  intro l
  induction l with
  | nil => intro seen; simp [dedupScan]
  | cons x xs ih =>
    intro seen
    by_cases hx : x ∈ seen
    · simp only [dedupScan, if_pos hx, ih, List.mem_cons]
      constructor
      · rintro ⟨h1, h2⟩; exact ⟨Or.inr h1, h2⟩
      · rintro ⟨h1 | h1, h2⟩
        · exact absurd (h1 ▸ hx) h2
        · exact ⟨h1, h2⟩
    · simp only [dedupScan, if_neg hx, List.mem_cons, ih]
      constructor
      · rintro (rfl | ⟨h1, h2⟩)
        · exact ⟨Or.inl rfl, hx⟩
        · exact ⟨Or.inr h1, fun hs => h2 (Or.inr hs)⟩
      · rintro ⟨rfl | h1, h2⟩
        · exact Or.inl rfl
        · by_cases hvx : v = x
          · exact Or.inl hvx
          · exact Or.inr ⟨h1, by simp [hvx, h2]⟩

theorem mem_dedupFirst [DecidableEq α] {v : α} {l : List α} :
    v ∈ dedupFirst l ↔ v ∈ l := by
  unfold dedupFirst
  simp [mem_dedupScan]

theorem nodup_dedupScan [DecidableEq α] :
    ∀ (l seen : List α), (dedupScan seen l).Nodup := by
  intro l
  induction l with
  | nil => intro seen; simp [dedupScan]
  | cons x xs ih =>
    intro seen
    by_cases hx : x ∈ seen
    · simpa [dedupScan, if_pos hx] using ih seen
    · rw [dedupScan, if_neg hx]
      refine List.Nodup.cons ?_ (ih (x :: seen))
      intro hmem
      exact (mem_dedupScan.mp hmem).2 (List.mem_cons_self x seen)

theorem nodup_dedupFirst [DecidableEq α] (l : List α) : (dedupFirst l).Nodup :=
  nodup_dedupScan l []

theorem dedupScan_eq_self [DecidableEq α] :
    ∀ {l seen : List α}, l.Nodup → (∀ v ∈ l, v ∉ seen) → dedupScan seen l = l := by
  intro l
  induction l with
  | nil => intro seen _ _; rfl
  | cons x xs ih =>
    intro seen hnd hdisj
    have hx : x ∉ seen := hdisj x (List.mem_cons_self x xs)
    rw [dedupScan, if_neg hx]
    congr 1
    apply ih (List.Nodup.of_cons hnd)
    intro v hv
    simp only [List.mem_cons]
    rintro (rfl | hs)
    · exact (List.nodup_cons.mp hnd).1 hv
    · exact hdisj v (List.mem_cons_of_mem _ hv) hs

theorem dedupFirst_eq_self [DecidableEq α] {l : List α} (h : l.Nodup) :
    dedupFirst l = l :=
  dedupScan_eq_self h (by simp)

theorem cnt_pos_of_mem [DecidableEq α] {v : α} :
    ∀ {l : List α}, v ∈ l → 1 ≤ cnt v l := by
  intro l
  induction l with
  | nil => intro h; cases h
  | cons x xs ih =>
    intro h
    rw [cnt]
    rcases List.mem_cons.mp h with rfl | h
    · simp
    · have := ih h; omega

theorem cnt_cons_ne [DecidableEq α] {v x : α} (h : x ≠ v) (xs : List α) :
    cnt v (x :: xs) = cnt v xs := by
  rw [cnt, if_neg h]
  omega

theorem cnt_eq_zero_of_not_mem [DecidableEq α] {v : α} :
    ∀ {l : List α}, v ∉ l → cnt v l = 0 := by
  intro l
  induction l with
  | nil => intro _; rfl
  | cons x xs ih =>
    intro h
    have hx : x ≠ v := fun hxv => h (hxv ▸ List.mem_cons_self x xs)
    rw [cnt_cons_ne hx]
    exact ih (fun hv => h (List.mem_cons_of_mem _ hv))

theorem cnt_eq_one_of_nodup [DecidableEq α] {v : α} :
    ∀ {l : List α}, l.Nodup → v ∈ l → cnt v l = 1 := by
  intro l
  induction l with
  | nil => intro _ h; cases h
  | cons x xs ih =>
    intro hnd h
    rcases List.mem_cons.mp h with rfl | h
    · rw [cnt, if_pos rfl, cnt_eq_zero_of_not_mem (List.nodup_cons.mp hnd).1]
    · have hxv : x ≠ v := fun hxv => (List.nodup_cons.mp hnd).1 (hxv ▸ h)
      rw [cnt_cons_ne hxv]
      exact ih (List.Nodup.of_cons hnd) h

/-! ### Conservation: summed tallies recover list lengths -/

theorem cnt_add_length_filter [DecidableEq α] {x : α} {seen : List α} (hx : x ∉ seen) :
    ∀ (xs : List α),
      cnt x xs + (xs.filter (fun y => decide (y ∉ x :: seen))).length
        = (xs.filter (fun y => decide (y ∉ seen))).length := by
  intro xs
  induction xs with
  | nil => rfl
  | cons y ys ih =>
    by_cases hyx : y = x
    · subst hyx
      rw [cnt, if_pos rfl]
      have h1 : (decide (y ∉ y :: seen)) = false := by simp
      have h2 : (decide (y ∉ seen)) = true := by simpa using hx
      simp only [List.filter_cons, h1, h2]
      simp only [Bool.false_eq_true, if_false, if_true, List.length_cons]
      omega
    · rw [cnt_cons_ne hyx]
      by_cases hys : y ∈ seen
      · have h1 : (decide (y ∉ x :: seen)) = false := by simp [hys]
        have h2 : (decide (y ∉ seen)) = false := by simp [hys]
        simp only [List.filter_cons, h1, h2]
        simp only [Bool.false_eq_true, if_false]
        exact ih
      · have h1 : (decide (y ∉ x :: seen)) = true := by simp [hyx, hys]
        have h2 : (decide (y ∉ seen)) = true := by simp [hys]
        simp only [List.filter_cons, h1, h2, if_true, List.length_cons]
        omega

theorem sum_cnt_dedupScan [DecidableEq α] :
    ∀ (l seen : List α),
      ((dedupScan seen l).map (fun v => cnt v l)).sum
        = (l.filter (fun y => decide (y ∉ seen))).length := by
  intro l
  induction l with
  | nil => intro seen; rfl
  | cons x xs ih =>
    intro seen
    by_cases hx : x ∈ seen
    · rw [dedupScan, if_pos hx]
      have hmap : (dedupScan seen xs).map (fun v => cnt v (x :: xs))
          = (dedupScan seen xs).map (fun v => cnt v xs) := by
        apply List.map_congr_left
        intro v hv
        have hvs : v ∉ seen := (mem_dedupScan.mp hv).2
        have hxv : x ≠ v := by rintro rfl; exact hvs hx
        exact cnt_cons_ne hxv xs
      rw [hmap, ih seen]
      have h2 : (decide (x ∉ seen)) = false := by simp [hx]
      simp only [List.filter_cons, h2]
      simp only [Bool.false_eq_true, if_false]
    · rw [dedupScan, if_neg hx]
      have hmap : (dedupScan (x :: seen) xs).map (fun v => cnt v (x :: xs))
          = (dedupScan (x :: seen) xs).map (fun v => cnt v xs) := by
        apply List.map_congr_left
        intro v hv
        have hvs : v ∉ x :: seen := (mem_dedupScan.mp hv).2
        have hxv : x ≠ v := by rintro rfl; exact hvs (List.mem_cons_self _ seen)
        exact cnt_cons_ne hxv xs
      rw [List.map_cons, List.sum_cons, hmap, ih (x :: seen)]
      have h2 : (decide (x ∉ seen)) = true := by simpa using hx
      simp only [List.filter_cons, h2, if_true, List.length_cons]
      rw [cnt, if_pos rfl]
      have := cnt_add_length_filter hx xs
      omega

theorem sum_cnt_dedupFirst [DecidableEq α] (l : List α) :
    ((dedupFirst l).map (fun v => cnt v l)).sum = l.length := by
  unfold dedupFirst
  rw [sum_cnt_dedupScan]
  simp

theorem sum_valueCounts [DecidableEq α] (l : List α) :
    ((valueCounts l).map Prod.snd).sum = l.length := by
  unfold valueCounts
  have hperm := List.perm_insertionSort (fun u v : α × Nat => v.2 ≤ u.2)
    ((dedupFirst l).map (fun v => (v, cnt v l)))
  rw [(hperm.map Prod.snd).sum_eq, List.map_map]
  simpa using sum_cnt_dedupFirst l

theorem length_filterMap_opt (f : Row → Option String) :
    ∀ (rs : List Row),
      (rs.filterMap f).length = (rs.filter (fun r => (f r).isSome)).length := by
  intro rs
  induction rs with
  | nil => rfl
  | cons r rs ih =>
    cases h : f r <;>
      simp [List.filterMap_cons, List.filter_cons, h, ih]

theorem length_dropnaCol (df : DataFrame) (c : String) :
    (dropnaCol df c).length = (df.rows.filter (fun r => (getVal r c).isSome)).length :=
  length_filterMap_opt (fun r => getVal r c) df.rows

/-! ### The Python string order is total and transitive -/

theorem charListLe_total : ∀ (a b : List Char), charListLe a b = true ∨ charListLe b a = true
  | [], _ => Or.inl rfl
  | _ :: _, [] => Or.inr rfl
  | x :: xs, y :: ys => by
    by_cases h1 : x.toNat < y.toNat
    · left; simp [charListLe, h1]
    · by_cases h2 : y.toNat < x.toNat
      · right; simp [charListLe, h2]
      · rcases charListLe_total xs ys with h | h
        · left; simp [charListLe, h1, h2, h]
        · right; simp [charListLe, h1, h2, h]

theorem charListLe_trans :
    ∀ (a b c : List Char),
      charListLe a b = true → charListLe b c = true → charListLe a c = true
  | [], _, _, _, _ => rfl
  | _ :: _, [], _, h, _ => by simp [charListLe] at h
  | _ :: _, _ :: _, [], _, h => by simp [charListLe] at h
  | x :: xs, y :: ys, z :: zs, h1, h2 => by
    simp only [charListLe] at h1 h2 ⊢
    by_cases hxy : x.toNat < y.toNat
    · by_cases hyz : y.toNat < z.toNat
      · have hxz : x.toNat < z.toNat := Nat.lt_trans hxy hyz
        simp [hxz]
      · rw [if_neg hyz] at h2
        by_cases hzy : z.toNat < y.toNat
        · rw [if_pos hzy] at h2; exact absurd h2 (by simp)
        · have hxz : x.toNat < z.toNat := by omega
          simp [hxz]
    · rw [if_neg hxy] at h1
      by_cases hyx : y.toNat < x.toNat
      · rw [if_pos hyx] at h1; exact absurd h1 (by simp)
      · rw [if_neg hyx] at h1
        by_cases hyz : y.toNat < z.toNat
        · have hxz : x.toNat < z.toNat := by omega
          simp [hxz]
        · rw [if_neg hyz] at h2
          by_cases hzy : z.toNat < y.toNat
          · rw [if_pos hzy] at h2; exact absurd h2 (by simp)
          · rw [if_neg hzy] at h2
            have hxz1 : ¬ x.toNat < z.toNat := by omega
            have hxz2 : ¬ z.toNat < x.toNat := by omega
            rw [if_neg hxz1, if_neg hxz2]
            exact charListLe_trans xs ys zs h1 h2

instance : IsTotal String strLeP :=
  ⟨fun a b => charListLe_total a.data b.data⟩

instance : IsTrans String strLeP :=
  ⟨fun a b c => charListLe_trans a.data b.data c.data⟩

/-! ### Membership characterizations -/

theorem mem_distinctValues {df : DataFrame} {c v : String} :
    v ∈ distinctValues df c ↔ ∃ r ∈ df.rows, getVal r c = some v := by
  unfold distinctValues sortAsc
  rw [(List.perm_insertionSort strLeP _).mem_iff, mem_dedupFirst]
  unfold dropnaCol
  exact List.mem_filterMap

theorem sorted_distinctValues (df : DataFrame) (c : String) :
    List.Sorted strLeP (distinctValues df c) :=
  List.sorted_insertionSort strLeP _

theorem nodup_distinctValues (df : DataFrame) (c : String) :
    (distinctValues df c).Nodup := by
  unfold distinctValues sortAsc
  exact (List.perm_insertionSort strLeP _).nodup_iff.mpr
    (nodup_dedupFirst (dropnaCol df c))

theorem mem_groupSizePairs {l : List (String × String)}
    {e : (String × String) × Nat} :
    e ∈ groupSizePairs l ↔ ∃ p ∈ dedupFirst l, (p, cnt p l) = e := by
  unfold groupSizePairs
  rw [(List.perm_insertionSort keyLe _).mem_iff]
  exact List.mem_map

theorem pos_of_mem_groupSizePairs {l : List (String × String)}
    {e : (String × String) × Nat} (h : e ∈ groupSizePairs l) : 1 ≤ e.2 := by
  rcases mem_groupSizePairs.mp h with ⟨p, hp, rfl⟩
  exact cnt_pos_of_mem (mem_dedupFirst.mp hp)

theorem mem_restrictTop {ct : List ((String × String) × Nat)} {top : List String}
    {e : (String × String) × Nat} :
    e ∈ restrictTop ct top ↔ e ∈ ct ∧ top.contains e.1.1 = true := by
  unfold restrictTop
  exact List.mem_filter

/-! ### Explosion of the multi-valued attribute -/

theorem length_occasionData (df : DataFrame) :
    (occasionData df).length
      = ((dropnaCol df "Occasion-Fit").map (fun s => (pySplit s ',').length)).sum := by
  unfold occasionData
  rw [List.length_flatMap]
  congr 1
  apply List.map_congr_left
  intro s _
  simp [List.length_map]

theorem occGenderRows_single {r : Row} {o g : String}
    (df : DataFrame) (hrows : df.rows = [r])
    (ho : getVal r "Occasion-Fit" = some o)
    (hg : getVal r "Gender-Target" = some g) :
    occGenderRows df = [(o, g)] := by
  unfold occGenderRows
  rw [hrows]
  simp [List.filterMap_cons, ho, hg]

theorem rowContribution_eq (o g : String) :
    rowContribution o g = (tokensOf o).map (fun t => (t, g)) := by
  unfold rowContribution tokensOf
  rw [List.map_map]
  rfl

theorem occasionGenderPairs_single {r : Row} {o g : String}
    (df : DataFrame) (hrows : df.rows = [r])
    (ho : getVal r "Occasion-Fit" = some o)
    (hg : getVal r "Gender-Target" = some g) :
    occasionGenderPairs df = (tokensOf o).map (fun t => (t, g)) := by
  unfold occasionGenderPairs
  rw [occGenderRows_single df hrows ho hg]
  simp [rowContribution_eq]

theorem nodup_token_pairs {o g : String} (h : (tokensOf o).Nodup) :
    ((tokensOf o).map (fun t => (t, g))).Nodup := by
  apply List.Nodup.map ?_ h
  intro a b hab
  exact (Prod.mk.injEq a g b g).mp hab |>.1

theorem groupSizePairs_of_nodup {l : List (String × String)} (h : l.Nodup) :
    ∀ p ∈ l, (p, 1) ∈ groupSizePairs l := by
  intro p hp
  apply mem_groupSizePairs.mpr
  refine ⟨p, ?_, ?_⟩
  · rw [dedupFirst_eq_self h]; exact hp
  · rw [cnt_eq_one_of_nodup h hp]

theorem length_groupSizePairs_of_nodup {l : List (String × String)} (h : l.Nodup) :
    (groupSizePairs l).length = l.length := by
  unfold groupSizePairs
  rw [(List.perm_insertionSort keyLe _).length_eq, List.length_map,
    dedupFirst_eq_self h]

theorem mem_valueCounts [DecidableEq α] {l : List α} {e : α × Nat} :
    e ∈ valueCounts l ↔ ∃ v ∈ dedupFirst l, (v, cnt v l) = e := by
  unfold valueCounts
  rw [(List.perm_insertionSort _ _).mem_iff]
  exact List.mem_map

/-! ### The claims -/

/-- Claim C1: for every dataset and filter criteria, the filtered dataset
contains only rows of the source and its rows appear in the same relative
order, i.e. the filtered row list is an order-preserving sub-sequence of
the source row list (and the column set is unchanged). -/
theorem claim1_filtered_sublist (df : DataFrame) (s : Selections) :
    (applyFilters df s).rows.Sublist df.rows ∧ (applyFilters df s).cols = df.cols :=
  ⟨applyFilters_rows_sublist df s, applyFilters_cols df s⟩

/-- Claim C2, counterexample: a trailing delimiter yields a token that is
empty after trimming, and the exploded observations keep it, so the empty
string receives a count in the Occasion-Fit frequency table (line 294) and
in the occasion-by-gender tally (line 536); the claim says such tokens are
discarded and never counted. -/
theorem claim2_counterexample :
    occasionData exDf2 = ["Casual", ""] ∧
    ("", 1) ∈ valueCounts (occasionData exDf2) ∧
    (("", "Women"), 1) ∈ occGenderCounts exDf2b := by decide

/-- Claim C2, amended: explosion splits the multi-valued cell on the
delimiter and trims surrounding whitespace from each token, but tokens
that are empty after trimming are kept, not discarded: the number of
exploded observations equals the total number of split tokens, and every
observation, the empty string included, contributes exactly one count to
the frequency tally. -/
theorem claim2_amended_tokens_kept (df : DataFrame) :
    (occasionData df).length
      = ((dropnaCol df "Occasion-Fit").map (fun s => (pySplit s ',').length)).sum ∧
    ((valueCounts (occasionData df)).map Prod.snd).sum = (occasionData df).length :=
  ⟨length_occasionData df, sum_valueCounts _⟩

/-- Claim C4: the counts in a frequency table sum to the number of rows
whose value for the attribute is non-missing, and every category of the
table is an actual non-missing value of some row, so missing values are
never counted and never appear as a category. -/
theorem claim4_count_conservation (df : DataFrame) (c : String) :
    ((valueCounts (dropnaCol df c)).map Prod.snd).sum
      = (df.rows.filter (fun r => (getVal r c).isSome)).length ∧
    (∀ e ∈ valueCounts (dropnaCol df c), ∃ r ∈ df.rows, getVal r c = some e.1) := by
  constructor
  · rw [sum_valueCounts]
    exact length_dropnaCol df c
  · intro e he
    rcases mem_valueCounts.mp he with ⟨v, hv, rfl⟩
    exact List.mem_filterMap.mp (mem_dedupFirst.mp hv)

/-- Claim C4, witness: on the concrete scenario of the spec (five rows, two
with Sub-Category missing) the counts total three, not five. -/
theorem claim4_witness :
    (((valueCounts (dropnaCol exDf4 "Sub-Category")).map Prod.snd).sum
      = (exDf4.rows.filter (fun r => (getVal r "Sub-Category").isSome)).length ∧
     (∀ e ∈ valueCounts (dropnaCol exDf4 "Sub-Category"),
        ∃ r ∈ exDf4.rows, getVal r "Sub-Category" = some e.1)) ∧
    ((valueCounts (dropnaCol exDf4 "Sub-Category")).map Prod.snd).sum = 3 :=
  ⟨claim4_count_conservation exDf4 "Sub-Category", by decide⟩

/-- Claim C5: filtering is idempotent: applying the same criteria to an
already-filtered dataset changes nothing. -/
theorem claim5_filter_idempotent (df : DataFrame) (s : Selections) :
    applyFilters (applyFilters df s) s = applyFilters df s := by
  rw [applyFilters_eq df s, applyFilters_eq]
  simp only [List.filter_filter]
  congr 1
  apply List.filter_congr
  intro r _
  exact Bool.and_self _

/-- Claim C6, counterexample: restricting the brand-by-product-type
cross-tabulation to the brands A and B drops brand C entirely, but does
not densify: the unobserved combination of kept categories B and X is
absent from the result rather than reported with an explicit count of
zero, contrary to the claim. -/
theorem claim6_counterexample :
    restrictTop (crossTabCounts exDf6 "brand" "Product-Type") ["A", "B"]
      = [(("A", "X"), 1), (("B", "Y"), 1)] ∧
    (("B", "X"), 0) ∉ restrictTop (crossTabCounts exDf6 "brand" "Product-Type")
      ["A", "B"] := by decide

/-- Claim C6, amended: the restriction drops every entry whose row
category is not in the top-category list entirely (no other bucket, no
merging: surviving entries keep their original counts and order), and the
result stays sparse: it is a sub-sequence of the cross-tabulation, every
entry carries a strictly positive observed count, and no zero-count cell
is added for unobserved combinations of kept categories. -/
theorem claim6_amended_sparse_restrict (df : DataFrame) (a b : String)
    (top : List String) :
    (restrictTop (crossTabCounts df a b) top).Sublist (crossTabCounts df a b) ∧
    (∀ e ∈ restrictTop (crossTabCounts df a b) top,
      top.contains e.1.1 = true ∧ 1 ≤ e.2) ∧
    (∀ e ∈ crossTabCounts df a b,
      top.contains e.1.1 = true → e ∈ restrictTop (crossTabCounts df a b) top) := by
  refine ⟨List.filter_sublist _, ?_, ?_⟩
  · intro e he
    rcases mem_restrictTop.mp he with ⟨hct, htop⟩
    exact ⟨htop, pos_of_mem_groupSizePairs hct⟩
  · intro e he htop
    exact mem_restrictTop.mpr ⟨he, htop⟩

/-- Claim C6, amended, witness: the amended statement evaluated on the
three-brand dataset restricted to brands A and B. -/
theorem claim6_witness :
    (restrictTop (crossTabCounts exDf6 "brand" "Product-Type") ["A", "B"]).Sublist
      (crossTabCounts exDf6 "brand" "Product-Type") ∧
    (∀ e ∈ restrictTop (crossTabCounts exDf6 "brand" "Product-Type") ["A", "B"],
      (["A", "B"] : List String).contains e.1.1 = true ∧ 1 ≤ e.2) ∧
    (∀ e ∈ crossTabCounts exDf6 "brand" "Product-Type",
      (["A", "B"] : List String).contains e.1.1 = true →
        e ∈ restrictTop (crossTabCounts exDf6 "brand" "Product-Type") ["A", "B"]) :=
  claim6_amended_sparse_restrict exDf6 "brand" "Product-Type" ["A", "B"]

/-- Claim C7: a row whose multi-valued attribute holds k distinct tags and
whose paired scalar attribute is non-missing credits exactly one count to
each tag-value cell of the paired tally, hence contributes to exactly k
cells. -/
theorem claim7_row_credits_once (df : DataFrame) (r : Row) (o g : String)
    (hrows : df.rows = [r])
    (ho : getVal r "Occasion-Fit" = some o)
    (hg : getVal r "Gender-Target" = some g)
    (hnd : (tokensOf o).Nodup) :
    (∀ t ∈ tokensOf o, ((t, g), 1) ∈ occGenderCounts df) ∧
    (occGenderCounts df).length = (tokensOf o).length := by
  have hpairs : occasionGenderPairs df = (tokensOf o).map (fun t => (t, g)) :=
    occasionGenderPairs_single df hrows ho hg
  have hnd2 : ((tokensOf o).map (fun t => (t, g))).Nodup := nodup_token_pairs hnd
  constructor
  · intro t ht
    unfold occGenderCounts
    rw [hpairs]
    exact groupSizePairs_of_nodup hnd2 (t, g)
      (List.mem_map_of_mem (fun t => (t, g)) ht)
  · unfold occGenderCounts
    rw [hpairs, length_groupSizePairs_of_nodup hnd2, List.length_map]

/-- Claim C7, witness: the spec scenario: the row with Occasion-Fit
Casual, Formal and Gender-Target Women credits exactly one count each to
the Casual-Women and Formal-Women cells. -/
theorem claim7_witness :
    (∀ t ∈ tokensOf "Casual, Formal", ((t, "Women"), 1) ∈ occGenderCounts exDf7) ∧
    (occGenderCounts exDf7).length = (tokensOf "Casual, Formal").length :=
  claim7_row_credits_once exDf7 exRow7 "Casual, Formal" "Women" rfl (by decide)
    (by decide) (by decide)

/-- Claim C8: the selectable distinct values of a filterable attribute are
sorted ascending, duplicate-free, exclude missing values (each is a
non-missing value of an actual row), cover every non-missing value of the
raw dataset, and any filtered view can only offer a subset of them, so
computing them from the raw dataset means menus never shrink as other
filters are applied. -/
theorem claim8_options_raw_sorted (df : DataFrame) (c : String) (s : Selections) :
    List.Sorted strLeP (distinctValues df c) ∧
    (distinctValues df c).Nodup ∧
    (∀ v ∈ distinctValues df c, ∃ r ∈ df.rows, getVal r c = some v) ∧
    (∀ r ∈ df.rows, ∀ v, getVal r c = some v → v ∈ distinctValues df c) ∧
    (∀ v ∈ distinctValues (applyFilters df s) c, v ∈ distinctValues df c) := by
  refine ⟨sorted_distinctValues df c, nodup_distinctValues df c, ?_, ?_, ?_⟩
  · intro v hv
    exact mem_distinctValues.mp hv
  · intro r hr v hv
    exact mem_distinctValues.mpr ⟨r, hr, hv⟩
  · intro v hv
    rcases mem_distinctValues.mp hv with ⟨r, hr, hval⟩
    exact mem_distinctValues.mpr ⟨r, (applyFilters_rows_sublist df s).subset hr, hval⟩

/-- Claim C8, witness: the option properties evaluated on a concrete
dataset with two brands, a product-type filter selection, and rows with
missing cells. -/
theorem claim8_witness :
    List.Sorted strLeP (distinctValues exDf8 "brand") ∧
    (distinctValues exDf8 "brand").Nodup ∧
    (∀ v ∈ distinctValues exDf8 "brand", ∃ r ∈ exDf8.rows, getVal r "brand" = some v) ∧
    (∀ r ∈ exDf8.rows, ∀ v, getVal r "brand" = some v →
      v ∈ distinctValues exDf8 "brand") ∧
    (∀ v ∈ distinctValues (applyFilters exDf8 sel8) "brand",
      v ∈ distinctValues exDf8 "brand") :=
  claim8_options_raw_sorted exDf8 "brand" sel8

/-- Claim C9: no pipeline derivation mutates the raw dataset: a rerun
returns the session state unchanged (same rows, same column set), and the
tables derived after any earlier rerun coincide with those derived from
the original state. -/
theorem claim9_raw_preserved (st : SessionState) (s s2 : Selections) :
    (runDashboard st s).1 = st ∧
    (runDashboard st s).1.raw.rows = st.raw.rows ∧
    (runDashboard st s).1.raw.cols = st.raw.cols ∧
    (runDashboard (runDashboard st s).1 s2).2 = (runDashboard st s2).2 :=
  ⟨rfl, rfl, rfl, rfl⟩

/-- Claim C10: the accept-all sentinel is the literal string All tested by
membership: whenever it is among the selected values, the attribute
imposes no constraint at all and the dataframe passes through unchanged;
hence a data value equal to All can never be filtered for in isolation. -/
theorem claim10_all_sentinel (df : DataFrame) (c : String) (sel : List String)
    (h : "All" ∈ sel) : filterStep df c sel = df := by
  have hc : sel.contains "All" = true := by simpa using h
  unfold filterStep
  rw [hc]
  simp

/-- Claim C10, witness: on a dataset whose brand column contains the
literal value All, selecting only All, or All alongside another value,
leaves the dataset unchanged. -/
theorem claim10_witness :
    filterStep exDf10 "brand" ["All"] = exDf10 ∧
    filterStep exDf10 "brand" ["All", "X"] = exDf10 :=
  ⟨claim10_all_sentinel exDf10 "brand" ["All"] (by decide),
   claim10_all_sentinel exDf10 "brand" ["All", "X"] (by decide)⟩

end FashionDashboard
